import Mathlib

/-!
Verification of the Adhyayan PDF question-answering pipeline.

Shallow embedding of the repository's Python modules (`ingest.py`,
`retrieval.py`, `llm_agent.py`, `token_utils.py`, `paper_search.py`) into
Lean.  Python strings are modelled as Lean `String`s (or `List Char` where
index arithmetic matters), Python exceptions as `Except`, the language-model
client as an oracle `LLM : String → Except String String` (`Except.ok` is a
successful `invoke` returning `resp.content`, `Except.error` an exception
caught by the surrounding `try`/`except`).
-/

namespace Adhyayan

/-! ### Python string primitives -/

/-- The characters Python `str.strip` / `str.split()` treat as whitespace. -/
def isPyWs (c : Char) : Bool :=
  c == ' ' || c == '\t' || c == '\n' || c == '\r' || c == '\x0b' || c == '\x0c'

/-- Python `str.lower` (ASCII case folding, which is all the repo relies on). -/
def pyLower (s : String) : String := ⟨s.toList.map Char.toLower⟩

/-- Python `str.strip` on a character list. -/
def pyStripList (l : List Char) : List Char :=
  ((l.dropWhile isPyWs).reverse.dropWhile isPyWs).reverse

/-- Python `str.strip`. -/
def pyStrip (s : String) : String := ⟨pyStripList s.toList⟩

/-- Split a character list at whitespace characters (keeping empty pieces). -/
def wsSplit : List Char → List Char → List (List Char)
  | [], cur => [cur.reverse]
  | c :: rest, cur =>
    if isPyWs c then cur.reverse :: wsSplit rest [] else wsSplit rest (c :: cur)

/-- Python `str.split()` with no argument: split on whitespace runs and
drop the empty pieces. -/
def pySplitWs (s : String) : List String :=
  ((wsSplit s.toList []).filter (fun t => t ≠ [])).map (fun l => (⟨l⟩ : String))

/-- Does `hay` start with `needle`? (helper for Python's `in`). -/
def startsWithSeq : List Char → List Char → Bool
  | [], _ => true
  | _ :: _, [] => false
  | a :: as, b :: bs => a == b && startsWithSeq as bs

/-- Is `needle` a contiguous subsequence of `hay`? -/
def containsSeq (needle : List Char) : List Char → Bool
  | [] => needle.isEmpty
  | c :: t => startsWithSeq needle (c :: t) || containsSeq needle t

/-- Python `needle in hay` on strings. -/
def pyContains (hay needle : String) : Bool := containsSeq needle.toList hay.toList

/-- Python slice `l[a:b]` (negative indices count from the end, out-of-range
indices clamp). -/
def pySlice (l : List Char) (a b : Int) : List Char :=
  let n := l.length
  let a' : Nat := if a < 0 then ((n : Int) + a).toNat else a.toNat
  let b' : Nat := if b < 0 then ((n : Int) + b).toNat else b.toNat
  (l.take b').drop a'

/-! ### `retrieval.py` -/

/-- A chunk record as built by `ingest_pdf`: `{"text": ..., "metadata":
{"page": ..., "source": ...}}`. -/
structure Chunk where
  text : String
  page : Nat
  source : String
deriving DecidableEq

/-- `retrieval.retrieve_chunks`: ignores any stored index and returns a fixed
three-element context list built from the document name and the question. -/
def retrieve_chunks (question pdf_name : String) : List String :=
  [ "You are analyzing the research paper titled: " ++ pdf_name,
    "User question: " ++ question,
    "Provide a clear, accurate, and well-structured answer based on the paper's content." ]

/-- The per-chunk test of `retrieval.simple_text_search`:
`any(keyword in text_lower for keyword in question_lower.split())`
(substring containment of each question token in the lowercased chunk text). -/
def chunkMatches (question : String) (c : Chunk) : Bool :=
  (pySplitWs (pyLower question)).any (fun kw => pyContains (pyLower c.text) kw)

/-- `retrieval.simple_text_search`: keep the chunks whose lowercased text
contains some whitespace-delimited token of the lowercased question; if none
match and the chunk list is non-empty, fall back to the first 3 chunks. -/
def simple_text_search (question : String) (chunks : List Chunk) : List Chunk :=
  let relevant_chunks := chunks.filter (chunkMatches question)
  if relevant_chunks = [] ∧ chunks ≠ [] then chunks.take 3 else relevant_chunks

/-- The spec's matching criterion, for comparison with `chunkMatches`: the
question and the chunk text share a whitespace-delimited token
(case-insensitive).  Follows the spec's words, not the code. -/
def specSharesToken (question : String) (c : Chunk) : Bool :=
  (pySplitWs (pyLower question)).any (fun t => (pySplitWs (pyLower c.text)).contains t)

/-! ### `ingest.py` -/

/-- A page record as built by `load_pdf`: `{"page": i+1, "text": txt}`. -/
structure Page where
  page : Nat
  text : String
deriving DecidableEq

/-- The loop of `ingest.load_pdf` over `enumerate(reader.pages)`: the input
list holds each page's `extract_text()` result (`none` when no text could be
extracted; `or ""` maps it to the empty string), and only pages whose
stripped text is non-empty are kept. -/
def loadPages : Nat → List (Option String) → List Page
  | _, [] => []
  | i, o :: rest =>
    let txt := o.getD ""
    if pyStrip txt ≠ "" then ⟨i + 1, txt⟩ :: loadPages (i + 1) rest
    else loadPages (i + 1) rest

/-- `ingest.load_pdf`, with the PDF parsing externalized to the list of
per-page extraction results. -/
def load_pdf (rawPages : List (Option String)) : List Page := loadPages 0 rawPages

/-- `ingest.extract_document_text`. -/
def extract_document_text (pages : List Page) : String :=
  pyStrip (pages.foldl
    (fun full_text p => full_text ++ "Page " ++ toString p.page ++ ":\n" ++ p.text ++ "\n\n") "")

/-- Python `text.split('\n\n')`: split at each (leftmost, non-overlapping)
occurrence of a double newline. -/
def splitParas : List Char → List Char → List (List Char)
  | [], cur => [cur.reverse]
  | '\n' :: '\n' :: rest, cur => cur.reverse :: splitParas rest []
  | c :: rest, cur => splitParas rest (c :: cur)

/-- The paragraph list of `ingest.chunk_text_for_llm`. -/
def pyParagraphs (text : String) : List String :=
  (splitParas text.toList []).map (fun l => (⟨l⟩ : String))

/-- The accumulation loop of `ingest.chunk_text_for_llm`: greedily pack
paragraphs into `current_chunk`, flushing (stripped) when adding the next
paragraph would exceed `max_chunk_size`. -/
def ctflLoop (max_chunk_size : Nat) : List String → String → List String → List String
  | [], current_chunk, chunks =>
    if pyStrip current_chunk ≠ "" then chunks ++ [pyStrip current_chunk] else chunks
  | paragraph :: ps, current_chunk, chunks =>
    if current_chunk.length + paragraph.length > max_chunk_size ∧ current_chunk ≠ "" then
      ctflLoop max_chunk_size ps paragraph (chunks ++ [pyStrip current_chunk])
    else if current_chunk ≠ "" then
      ctflLoop max_chunk_size ps (current_chunk ++ "\n\n" ++ paragraph) chunks
    else
      ctflLoop max_chunk_size ps paragraph chunks

/-- `ingest.chunk_text_for_llm`. -/
def chunk_text_for_llm (text : String) (max_chunk_size : Nat := 4000) : List String :=
  ctflLoop max_chunk_size (pyParagraphs text) "" []

/-- `ingest.estimate_token_count`. -/
def estimate_token_count (text : String) : Nat := text.length / 4

/-- `ingest.check_document_size`. -/
def check_document_size (full_text : String) : String × Nat × String :=
  let token_count := estimate_token_count full_text
  if token_count > 8000 then
    ("large", token_count,
      "Large document (" ++ toString token_count ++ " tokens - may take longer to process)")
  else if token_count > 4000 then
    ("medium", token_count, "Medium document (" ++ toString token_count ++ " tokens)")
  else
    ("small", token_count, "Small document (" ++ toString token_count ++ " tokens)")

/-! ### `token_utils.py` -/

/-- `token_utils.estimate_tokens`. -/
def estimate_tokens (text : String) : Nat := text.length / 4

/-- `token_utils.truncate_to_tokens`. -/
def truncate_to_tokens (text : String) (max_tokens : Nat := 5000) : String :=
  let max_chars := max_tokens * 4
  if text.length ≤ max_chars then text else ⟨text.toList.take max_chars⟩

/-- The `while start < len(text)` loop of `token_utils.chunk_text_by_tokens`,
made total with an explicit fuel parameter: `none` means the fuel ran out
with the loop condition still true (the loop has not terminated yet),
`some` means the loop exited normally.  `start` is an `Int` because Python's
`start = end - overlap_chars` can go negative. -/
def chunkLoop (text : List Char) (chunk_chars overlap_chars : Nat) :
    Nat → Int → List (List Char) → Option (List (List Char))
  | 0, start, acc => if start < (text.length : Int) then none else some acc.reverse
  | fuel + 1, start, acc =>
    if start < (text.length : Int) then
      chunkLoop text chunk_chars overlap_chars fuel
        (start + (chunk_chars : Int) - (overlap_chars : Int))
        (pySlice text start (start + (chunk_chars : Int)) :: acc)
    else some acc.reverse

/-- `token_utils.chunk_text_by_tokens`, run with fuel `text.length + 1`
(sufficient whenever the window start strictly advances each iteration). -/
def chunk_text_by_tokens (text : List Char)
    (chunk_tokens : Nat := 4000) (overlap_tokens : Nat := 200) :
    Option (List (List Char)) :=
  chunkLoop text (chunk_tokens * 4) (overlap_tokens * 4) (text.length + 1) 0 []

/-- `token_utils.check_pdf_size`. -/
def check_pdf_size (full_text : String) : String × Nat × String :=
  let tokens := estimate_tokens full_text
  if tokens < 5000 then ("small", tokens, "✅ Document size is optimal")
  else if tokens < 15000 then
    ("medium", tokens, "⚠️ Document is large, will be chunked for processing")
  else ("large", tokens, "⚠️ Very large document, processing may take longer")

/-! ### `llm_agent.py` -/

/-- The language-model client (`ChatGroq(...).invoke`): `Except.ok` is a
successful call returning `resp.content`, `Except.error e` a raised
exception with `str(e) = e`. -/
def LLM : Type := String → Except String String

/-- One labelled context entry of `answer_with_context`'s loop: the code
accepts plain strings, objects with `.metadata`/`.page_content`, and plain
dicts with `'metadata'`/`'text'` keys. -/
inductive PyChunk where
  | str (s : String)
  | obj (metadata : List (String × String)) (page_content : String)
  | dict (metadata : List (String × String)) (text : String)
deriving DecidableEq

/-- Python `meta.get(key, dflt)`. -/
def metaGet (meta : List (String × String)) (key dflt : String) : String :=
  match meta.find? (fun kv => kv.1 == key) with
  | some kv => kv.2
  | none => dflt

/-- The block appended to `context_text` for the chunk at (0-based) index `i`. -/
def pyChunkBlock (i : Nat) (c : PyChunk) : String :=
  match c with
  | .str s => "[Chunk " ++ toString (i + 1) ++ "]\n" ++ s ++ "\n\n"
  | .obj meta page_content =>
      "[Chunk " ++ toString (i + 1) ++ " from " ++ metaGet meta "source" "document" ++
        " page=" ++ metaGet meta "page" "N/A" ++ "]\n" ++ page_content ++ "\n\n"
  | .dict meta text =>
      "[Chunk " ++ toString (i + 1) ++ " from " ++ metaGet meta "source" "document" ++
        " page=" ++ metaGet meta "page" "N/A" ++ "]\n" ++ text ++ "\n\n"

/-- The `context_text` accumulated by `answer_with_context`. -/
def contextTextOf (chunks : List PyChunk) : String :=
  String.join ((chunks.enum).map (fun p => pyChunkBlock p.1 p.2))

/-- The prompt built by `answer_with_context`. -/
def mkAnswerPrompt (question : String) (chunks : List PyChunk) : String :=
  "\nAnswer the question using ONLY these chunks:\n\n" ++ contextTextOf chunks ++
    "\n\nQuestion: " ++ question ++
    "\n\nFormat:\n1) Final answer\n2) Citations (which chunk labels you used)\n"

/-- `llm_agent.answer_with_context`: one model call wrapped in
`try`/`except`, the exception converted to an apology string. -/
def answer_with_context (llm : LLM) (question : String) (chunks : List PyChunk) : String :=
  match llm (mkAnswerPrompt question chunks) with
  | .ok content => content
  | .error e =>
      "I apologize, but I encountered an error while processing your question: " ++ e

/-- The slice loop of `summarize_document`:
`[full_text[i:i+20000] for i in range(0, len(full_text), 20000)]`
(the local `chunk_size = max_chars = 20000`), with fuel (each step consumes
at least one character, so `l.length` fuel always suffices). -/
def sliceChunksF : Nat → List Char → List (List Char)
  | 0, _ => []
  | fuel + 1, l => if l = [] then [] else l.take 20000 :: sliceChunksF fuel (l.drop 20000)

/-- The chunk list of `summarize_document`'s large-document branch. -/
def sliceChunks (l : List Char) : List (List Char) := sliceChunksF l.length l

/-- The per-slice prompt of `summarize_document`. -/
def partialPrompt (chunk : String) : String :=
  "\nSummarize the key topics and methods in this section of a research document:\n\n" ++
    chunk ++ "\n\nProvide a brief 2-3 sentence summary focusing on the main topic.\n"

/-- The reduction prompt of `summarize_document`. -/
def finalPrompt (combined : String) : String :=
  "\nBased on these section summaries of a research paper, provide a comprehensive 3-4 sentence summary of the overall document:\n\n" ++
    combined ++
    "\n\nFocus on: main topic, research field, and key methodology.\nReturn only the summary, no preamble.\n"

/-- The single-call prompt of `summarize_document`'s small-document branch. -/
def directPrompt (full_text : String) : String :=
  "\nYou are an expert in analyzing academic documents.\n\nSummarize the core topic, field, and methods described in the following document text.\nThe summary must be 3-4 sentences and strictly about the topic.\n\nDocument:\n" ++
    full_text ++ "\n\nReturn only the topic summary.\n"

/-- The partial summaries gathered by `summarize_document`'s
`for i, chunk in enumerate(chunks[:3])` loop: a failed call is skipped
(`except ...: continue`), a successful one contributes
`resp.content.strip()`. -/
def partialSummaries (llm : LLM) (full_text : String) : List String :=
  ((sliceChunks full_text.toList).take 3).filterMap (fun c =>
    match llm (partialPrompt ⟨c⟩) with
    | .ok r => some (pyStrip r)
    | .error _ => none)

/-- The large-document branch of `llm_agent.summarize_document`
(`if len(full_text) > max_chars:`): summarize up to the first 3 slices,
bail out if nothing succeeded, otherwise reduce with one final call. -/
def summarizeLarge (llm : LLM) (full_text : String) : String :=
  let summaries := partialSummaries llm full_text
  if summaries = [] then "Unable to generate summary due to processing errors."
  else
    let combined := String.intercalate " " summaries
    match llm (finalPrompt combined) with
    | .ok r => pyStrip r
    | .error e => "Summary generation failed: " ++ e

/-- `llm_agent.summarize_document` (`max_chars = 20000`). -/
def summarize_document (llm : LLM) (full_text : String) : String :=
  if full_text.length > 20000 then summarizeLarge llm full_text
  else
    match llm (directPrompt full_text) with
    | .ok r => pyStrip r
    | .error e => "Summary generation failed: " ++ e

/-! ### `ingest.py`, top level -/

/-- `ingest.ingest_pdf`, with the PDF reading externalized to the per-page
extraction results and the path handling to `pdf_name`.  Returns
`(len(chunks), len(pages), doc_summary, pdf_name)`; the `ValueError` raised
on an empty page list is the `Except.error` case.  (`summarize_document` is
total in this model, so the `except` fallback around it is unreachable.) -/
def ingest_pdf (llm : LLM) (pdf_name : String) (rawPages : List (Option String)) :
    Except String (Nat × Nat × String × String) :=
  let pages := load_pdf rawPages
  if pages = [] then .error ("No text could be extracted from " ++ pdf_name)
  else
    let full_text := extract_document_text pages
    let doc_summary := summarize_document llm full_text
    let chunks := pages.filter (fun p => pyStrip p.text ≠ "")
    .ok (chunks.length, pages.length, doc_summary, pdf_name)

/-! ### `paper_search.py` -/

/-- A candidate related paper as assembled by `search_arxiv_by_embedding` /
`search_semantic_scholar_by_embedding`.  The cosine similarity is modelled
as an integer-valued rank: the dedup/cap logic only compares similarities. -/
structure Paper where
  title : String
  similarity : Int
deriving DecidableEq

/-- The normalized title used for deduplication:
`paper['title'].lower().strip()`. -/
def normTitle (p : Paper) : String := pyStrip (pyLower p.title)

/-- The sort key of `all_papers.sort(key=lambda x: x['similarity'], reverse=True)`:
`a` comes no later than `b` when `a`'s similarity is at least `b`'s. -/
def paperGE (a b : Paper) : Prop := b.similarity ≤ a.similarity

instance : DecidableRel paperGE := fun a b =>
  inferInstanceAs (Decidable (b.similarity ≤ a.similarity))

instance : IsTotal Paper paperGE :=
  ⟨fun a b => le_total b.similarity a.similarity⟩

instance : IsTrans Paper paperGE :=
  ⟨fun _ _ _ hab hbc => le_trans hbc hab⟩

/-- Python's `list.sort(..., reverse=True)` is a stable sort by descending
similarity; insertion sort over `paperGE` is the same stable sort. -/
def sortBySimilarityDesc (ps : List Paper) : List Paper := ps.insertionSort paperGE

/-- The `seen_titles` dedup loop of `search_papers_by_embedding`: keep a
paper iff its normalized title has not been seen yet. -/
def dedupKeepFirst : List Paper → List String → List Paper
  | [], _ => []
  | p :: rest, seen_titles =>
    if normTitle p ∈ seen_titles then dedupKeepFirst rest seen_titles
    else p :: dedupKeepFirst rest (normTitle p :: seen_titles)

/-- The ranking/dedup/cap core of `paper_search.search_papers_by_embedding`
(lines building `results['similar_papers']`), with the two network fetches
externalized to the merged candidate list `all_papers =
arxiv_papers + semantic_papers`. -/
def search_papers_by_embedding (all_papers : List Paper) : List Paper :=
  (dedupKeepFirst (sortBySimilarityDesc all_papers) []).take 7

/-! ### General lemmas about the string primitives -/

lemma startsWithSeq_refl : ∀ l : List Char, startsWithSeq l l = true
  | [] => rfl
  | a :: as => by simp [startsWithSeq, startsWithSeq_refl as]

lemma startsWithSeq_append :
    ∀ (n h t : List Char), startsWithSeq n h = true → startsWithSeq n (h ++ t) = true
  | [], _, _, _ => rfl
  | a :: as, [], t, hn => by simp [startsWithSeq] at hn
  | a :: as, b :: bs, t, hn => by
    simp only [startsWithSeq, Bool.and_eq_true, beq_iff_eq] at hn
    simp only [List.cons_append, startsWithSeq, Bool.and_eq_true, beq_iff_eq]
    exact ⟨hn.1, startsWithSeq_append as bs t hn.2⟩

lemma containsSeq_of_startsWith :
    ∀ (n h : List Char), startsWithSeq n h = true → containsSeq n h = true
  | n, [], hs => by
    cases n with
    | nil => rfl
    | cons a as => simp [startsWithSeq] at hs
  | n, c :: t, hs => by simp [containsSeq, hs]

lemma containsSeq_append_left :
    ∀ (n pre h : List Char), containsSeq n h = true → containsSeq n (pre ++ h) = true
  | _, [], _, hc => hc
  | n, c :: pre, h, hc => by
    simp only [List.cons_append, containsSeq, Bool.or_eq_true]
    exact Or.inr (containsSeq_append_left n pre h hc)

lemma toList_append (a b : String) : (a ++ b).toList = a.toList ++ b.toList := by
  cases a; cases b; rfl

/-! ### Claims -/

/-- Claim C2, counterexample: for a concrete question and a document id for
which no index was ever created, `retrieve_chunks` does not fail with an
`IndexNotFoundError` (no such error exists anywhere in the code); it returns
a fabricated three-element context list. -/
theorem c2_retrieve_counterexample :
    retrieve_chunks "What is the main contribution?" "never_ingested_doc" =
      ["You are analyzing the research paper titled: never_ingested_doc",
       "User question: What is the main contribution?",
       "Provide a clear, accurate, and well-structured answer based on the paper's content."] :=
  rfl

/-- Claim C2, amended: for every question string and every document id,
`retrieve_chunks` never fails and never consults an index: it returns a
fixed fabricated three-element instruction list built from the document
name and the question. -/
theorem c2_retrieve_amended :
    ∀ question pdf_name : String,
      retrieve_chunks question pdf_name =
        ["You are analyzing the research paper titled: " ++ pdf_name,
         "User question: " ++ question,
         "Provide a clear, accurate, and well-structured answer based on the paper's content."] ∧
      (retrieve_chunks question pdf_name).length = 3 :=
  fun _ _ => ⟨rfl, rfl⟩

/-- Claim C3, counterexample: with question `"dog"` and chunks
`["cat", "hotdog stand", "bird"]`, no chunk shares a whitespace-delimited
token with the question (in the spec's sense), yet `simple_text_search`
returns `["hotdog stand"]` — a substring match inside the word `"hotdog"` —
and not the first K chunks in document order (its head differs from the
chunk list's head, and it is not `chunks.take 3`). -/
theorem c3_lexical_fallback_counterexample :
    (([⟨"cat", 1, "d"⟩, ⟨"hotdog stand", 2, "d"⟩, ⟨"bird", 3, "d"⟩] : List Chunk).all
        (fun c => !(specSharesToken "dog" c)) = true) ∧
    simple_text_search "dog" [⟨"cat", 1, "d"⟩, ⟨"hotdog stand", 2, "d"⟩, ⟨"bird", 3, "d"⟩] =
      [⟨"hotdog stand", 2, "d"⟩] ∧
    (simple_text_search "dog"
        [⟨"cat", 1, "d"⟩, ⟨"hotdog stand", 2, "d"⟩, ⟨"bird", 3, "d"⟩]).head? ≠
      some (⟨"cat", 1, "d"⟩ : Chunk) ∧
    simple_text_search "dog" [⟨"cat", 1, "d"⟩, ⟨"hotdog stand", 2, "d"⟩, ⟨"bird", 3, "d"⟩] ≠
      ([⟨"cat", 1, "d"⟩, ⟨"hotdog stand", 2, "d"⟩, ⟨"bird", 3, "d"⟩] : List Chunk).take 3 := by
  refine ⟨by decide, by decide, by decide, by decide⟩

/-- Claim C3, amended: for every question and non-empty chunk list, if no
chunk's lowercased text contains any lowercased whitespace-delimited token
of the question as a substring (the code's actual matching criterion), then
`simple_text_search` returns the first `min 3 n` chunks in document order —
a non-empty result, never an empty list.  (The fallback count is the
hardcoded 3, and the trigger is substring containment, not shared tokens.) -/
theorem c3_lexical_fallback_amended (question : String) (chunks : List Chunk)
    (hne : chunks ≠ [])
    (hnomatch : ∀ c ∈ chunks, chunkMatches question c = false) :
    simple_text_search question chunks = chunks.take 3 ∧
    simple_text_search question chunks ≠ [] := by
  have hfil : chunks.filter (chunkMatches question) = [] :=
    List.filter_eq_nil_iff.mpr (fun c hc => by simp [hnomatch c hc])
  have hres : simple_text_search question chunks = chunks.take 3 := by
    simp only [simple_text_search, hfil]
    exact if_pos ⟨by trivial, hne⟩
  refine ⟨hres, ?_⟩
  rw [hres]
  cases chunks with
  | nil => exact absurd rfl hne
  | cons c cs => simp [List.take]

/-- Witness for the amended C3 theorem at a concrete input. -/
theorem c3_witness :
    simple_text_search "xyzzy" [⟨"cat", 1, "d"⟩] = [⟨"cat", 1, "d"⟩] ∧
    simple_text_search "xyzzy" [⟨"cat", 1, "d"⟩] ≠ [] := by
  have h := c3_lexical_fallback_amended "xyzzy" [⟨"cat", 1, "d"⟩]
    (by decide) (by decide)
  exact ⟨h.1, h.2⟩

/-- Claim C4, counterexample: retrieval takes no K parameter and imposes no
K bound: with six chunks all matching the question, `simple_text_search`
returns all six results, exceeding the spec's default K = 5. -/
theorem c4_topk_counterexample :
    (simple_text_search "apple"
        [⟨"apple one", 1, "d"⟩, ⟨"apple two", 2, "d"⟩, ⟨"apple three", 3, "d"⟩,
         ⟨"apple four", 4, "d"⟩, ⟨"apple five", 5, "d"⟩, ⟨"apple six", 6, "d"⟩]).length = 6 ∧
    5 < 6 := by
  exact ⟨by decide, by decide⟩

/-- Claim C4, amended: neither retrieval function takes a K or computes
relevance scores.  `simple_text_search` returns a subsequence of the input
chunk list — every matching chunk, in original document order (hence
deterministic for identical inputs), at most the number of chunks — and
`retrieve_chunks` always returns exactly 3 strings. -/
theorem c4_retrieval_order_amended (question pdf_name : String) (chunks : List Chunk) :
    List.Sublist (simple_text_search question chunks) chunks ∧
    (simple_text_search question chunks).length ≤ chunks.length ∧
    (retrieve_chunks question pdf_name).length = 3 := by
  have hsub : List.Sublist (simple_text_search question chunks) chunks := by
    simp only [simple_text_search]
    split
    · exact List.take_sublist 3 chunks
    · exact List.filter_sublist chunks
  exact ⟨hsub, hsub.length_le, rfl⟩

/-- Claim C5: for every question and chunk list, if the language-model
invocation raises (the oracle returns `Except.error e`), `answer_with_context`
returns the apology string embedding the error detail — it contains the
apology marker and the error text, and no exception propagates (the function
is total). -/
theorem c5_answer_never_raises (llm : LLM) (question : String) (chunks : List PyChunk)
    (e : String) (h : llm (mkAnswerPrompt question chunks) = Except.error e) :
    answer_with_context llm question chunks =
      "I apologize, but I encountered an error while processing your question: " ++ e ∧
    pyContains (answer_with_context llm question chunks) "I apologize" = true ∧
    pyContains (answer_with_context llm question chunks) e = true := by
  have heq : answer_with_context llm question chunks =
      "I apologize, but I encountered an error while processing your question: " ++ e := by
    unfold answer_with_context
    rw [h]
  have hsplit :
      ("I apologize, but I encountered an error while processing your question: " ++ e).toList =
        "I apologize, but I encountered an error while processing your question: ".toList ++
          e.toList :=
    toList_append _ _
  refine ⟨heq, ?_, ?_⟩
  · rw [heq]
    unfold pyContains
    rw [hsplit]
    exact containsSeq_of_startsWith _ _ (startsWithSeq_append _ _ _ (by decide))
  · rw [heq]
    unfold pyContains
    rw [hsplit]
    exact containsSeq_append_left _ _ _
      (containsSeq_of_startsWith _ _ (startsWithSeq_refl _))

lemma loadPages_text_ne :
    ∀ (i : Nat) (raw : List (Option String)), ∀ p ∈ loadPages i raw, pyStrip p.text ≠ "" := by
  intro i raw
  induction raw generalizing i with
  | nil => intro p hp; simp [loadPages] at hp
  | cons o rest ih =>
    intro p hp
    simp only [loadPages] at hp
    split at hp
    · rcases List.mem_cons.mp hp with rfl | hp'
      · assumption
      · exact ih _ p hp'
    · exact ih _ p hp

lemma loadPages_length :
    ∀ (i : Nat) (raw : List (Option String)),
      (loadPages i raw).length = (raw.filter (fun o => pyStrip (o.getD "") ≠ "")).length := by
  intro i raw
  induction raw generalizing i with
  | nil => rfl
  | cons o rest ih =>
    simp only [loadPages, List.filter_cons]
    split
    · rename_i h
      rw [if_pos (by simpa using h)]
      simp [ih]
    · rename_i h
      rw [if_neg (by simpa using h)]
      exact ih _

/-- Claim C1, counterexample: a 3-page PDF whose middle page has no
extractable text loads as only 2 pages (`load_pdf` drops the empty page
instead of keeping an empty-text page record), and ingestion reports
`page_count = 2`, not 3. -/
theorem c1_page_count_counterexample :
    load_pdf [some "Hello", some "", some "World"] =
      [⟨1, "Hello"⟩, ⟨3, "World"⟩] ∧
    ingest_pdf (fun _ => Except.ok "S") "doc" [some "Hello", some "", some "World"] =
      Except.ok (2, 2, "S", "doc") ∧
    (2 : Nat) ≠ 3 :=
  ⟨by decide, rfl, by decide⟩

/-- Claim C1, amended: `load_pdf` keeps exactly the pages whose extracted
text is non-empty after stripping (empty-text pages are dropped, not kept);
when at least one page survives, `ingest_pdf` succeeds and reports
`page_count` equal to the number of surviving (non-empty) pages and
`chunk_count` equal to `page_count`; `page_count` equals the number of raw
pages with non-whitespace extractable text. -/
theorem c1_ingest_counts_amended (llm : LLM) (pdf_name : String)
    (raw : List (Option String)) (h : load_pdf raw ≠ []) :
    (∀ p ∈ load_pdf raw, pyStrip p.text ≠ "") ∧
    ingest_pdf llm pdf_name raw =
      Except.ok ((load_pdf raw).length, (load_pdf raw).length,
        summarize_document llm (extract_document_text (load_pdf raw)), pdf_name) ∧
    (load_pdf raw).length = (raw.filter (fun o => pyStrip (o.getD "") ≠ "")).length := by
  have hall : ∀ p ∈ load_pdf raw, pyStrip p.text ≠ "" := loadPages_text_ne 0 raw
  have hfil : (load_pdf raw).filter (fun p => pyStrip p.text ≠ "") = load_pdf raw :=
    List.filter_eq_self.mpr (fun p hp => by simpa using hall p hp)
  refine ⟨hall, ?_, loadPages_length 0 raw⟩
  simp only [ingest_pdf]
  rw [if_neg h, hfil]

/-- Witness for the amended C1 theorem at a concrete one-page input. -/
theorem c1_witness :
    ingest_pdf (fun _ => Except.ok "S") "d" [some "Hi"] =
      Except.ok ((load_pdf [some "Hi"]).length, (load_pdf [some "Hi"]).length,
        summarize_document (fun _ => Except.ok "S")
          (extract_document_text (load_pdf [some "Hi"])), "d") :=
  (c1_ingest_counts_amended (fun _ => Except.ok "S") "d" [some "Hi"] (by decide)).2.1

lemma chunkLoop_isSome (text : List Char) (cc oc : Nat) (h : oc < cc) :
    ∀ (fuel : Nat) (start : Int) (acc : List (List Char)),
      (text.length : Int) - start ≤ (fuel : Int) →
      (chunkLoop text cc oc fuel start acc).isSome = true := by
  intro fuel
  induction fuel with
  | zero =>
    intro start acc hfuel
    simp only [chunkLoop]
    rw [if_neg (by omega)]
    rfl
  | succ n ih =>
    intro start acc hfuel
    simp only [chunkLoop]
    by_cases hlt : start < (text.length : Int)
    · rw [if_pos hlt]
      exact ih _ _ (by omega)
    · rw [if_neg hlt]
      rfl

lemma chunkLoop_stuck (text : List Char) (cc oc : Nat) (hco : cc ≤ oc) (hne : text ≠ []) :
    ∀ (fuel : Nat) (start : Int) (acc : List (List Char)),
      start ≤ 0 → chunkLoop text cc oc fuel start acc = none := by
  have hlen : 0 < text.length := List.length_pos.mpr hne
  intro fuel
  induction fuel with
  | zero =>
    intro start acc hs
    simp only [chunkLoop]
    rw [if_pos (by omega)]
  | succ n ih =>
    intro start acc hs
    simp only [chunkLoop]
    rw [if_pos (by omega)]
    exact ih _ _ (by omega)

/-- Claim C10: the sliding-window chunker terminates for every input when
`chunk_tokens > overlap_tokens` (the fuel `text.length + 1` is never
exhausted, so `chunk_text_by_tokens` returns `some`); when
`chunk_tokens ≤ overlap_tokens` and the text is non-empty, the loop never
exits — for every fuel bound the loop is still running (`none`). -/
theorem c10_chunker_termination :
    ∀ (text : List Char) (chunk_tokens overlap_tokens : Nat),
      (overlap_tokens < chunk_tokens →
        (chunk_text_by_tokens text chunk_tokens overlap_tokens).isSome = true) ∧
      (chunk_tokens ≤ overlap_tokens → text ≠ [] →
        ∀ fuel : Nat,
          chunkLoop text (chunk_tokens * 4) (overlap_tokens * 4) fuel 0 [] = none) := by
  intro text ct ot
  constructor
  · intro h
    exact chunkLoop_isSome text (ct * 4) (ot * 4) (by omega) (text.length + 1) 0 [] (by omega)
  · intro h hne fuel
    exact chunkLoop_stuck text (ct * 4) (ot * 4) (by omega) hne fuel 0 [] le_rfl

/-- Witness for C10 at concrete inputs: termination with
`chunk_tokens = 1 > 0 = overlap_tokens`, non-termination (for fuel 5) with
`chunk_tokens = overlap_tokens = 1` on a non-empty text. -/
theorem c10_witness :
    (chunk_text_by_tokens "abcdef".toList 1 0).isSome = true ∧
    chunkLoop "ab".toList (1 * 4) (1 * 4) 5 0 [] = none := by
  constructor
  · exact (c10_chunker_termination "abcdef".toList 1 0).1 (by decide)
  · exact (c10_chunker_termination "ab".toList 1 1).2 (by decide) (by decide) 5

lemma pySlice_length_le (l : List Char) (a : Int) (cc : Nat) :
    (pySlice l a (a + (cc : Int))).length ≤ cc := by
  simp only [pySlice, List.length_drop, List.length_take]
  split_ifs <;> omega

lemma chunkLoop_chunk_len (text : List Char) (cc oc : Nat) :
    ∀ (fuel : Nat) (start : Int) (acc res : List (List Char)),
      (∀ c ∈ acc, c.length ≤ cc) →
      chunkLoop text cc oc fuel start acc = some res →
      ∀ c ∈ res, c.length ≤ cc := by
  intro fuel
  induction fuel with
  | zero =>
    intro start acc res hacc heq
    simp only [chunkLoop] at heq
    split at heq
    · exact absurd heq (by simp)
    · intro c hc
      obtain rfl : acc.reverse = res := Option.some.injEq _ _ ▸ heq
      exact hacc c (List.mem_reverse.mp hc)
  | succ n ih =>
    intro start acc res hacc heq
    simp only [chunkLoop] at heq
    split at heq
    · refine ih _ _ _ ?_ heq
      intro c hc
      rcases List.mem_cons.mp hc with rfl | hc'
      · exact pySlice_length_le text start cc
      · exact hacc c hc'
    · intro c hc
      obtain rfl : acc.reverse = res := Option.some.injEq _ _ ▸ heq
      exact hacc c (List.mem_reverse.mp hc)

lemma pyStripList_length_le (l : List Char) : (pyStripList l).length ≤ l.length := by
  simp only [pyStripList, List.length_reverse]
  calc ((l.dropWhile isPyWs).reverse.dropWhile isPyWs).length
      ≤ (l.dropWhile isPyWs).reverse.length := (List.dropWhile_sublist _).length_le
    _ = (l.dropWhile isPyWs).length := List.length_reverse _
    _ ≤ l.length := (List.dropWhile_sublist _).length_le

lemma pyStrip_length_le (s : String) : (pyStrip s).length ≤ s.length :=
  pyStripList_length_le s.toList

lemma ctflLoop_len_bound (m : Nat) :
    ∀ (ps : List String) (cur : String) (acc : List String),
      (∀ p ∈ ps, p.length ≤ m) → cur.length ≤ m + 2 →
      (∀ c ∈ acc, c.length ≤ m + 2) →
      ∀ c ∈ ctflLoop m ps cur acc, c.length ≤ m + 2 := by
  intro ps
  induction ps with
  | nil =>
    intro cur acc _ hcur hacc c hc
    simp only [ctflLoop] at hc
    split at hc
    · rcases List.mem_append.mp hc with hc' | hc'
      · exact hacc c hc'
      · obtain rfl : c = pyStrip cur := by simpa using hc'
        exact le_trans (pyStrip_length_le cur) hcur
    · exact hacc c hc
  | cons p ps ih =>
    intro cur acc hps hcur hacc c hc
    simp only [ctflLoop] at hc
    split at hc
    · -- flush: current chunk is emitted (stripped), the paragraph restarts
      refine ih p (acc ++ [pyStrip cur]) (fun q hq => hps q (List.mem_cons_of_mem _ hq))
        (le_trans (hps p (List.mem_cons_self p ps)) (by omega)) ?_ c hc
      intro d hd
      rcases List.mem_append.mp hd with hd' | hd'
      · exact hacc d hd'
      · obtain rfl : d = pyStrip cur := by simpa using hd'
        exact le_trans (pyStrip_length_le cur) hcur
    · split at hc
      · -- join: adding the paragraph keeps the chunk within m, plus "\n\n"
        rename_i hover hcurne
        have hfit : cur.length + p.length ≤ m := by
          by_contra hgt
          exact hover ⟨by omega, hcurne⟩
        refine ih (cur ++ "\n\n" ++ p) acc (fun q hq => hps q (List.mem_cons_of_mem _ hq))
          ?_ hacc c hc
        rw [String.length_append, String.length_append]
        have h2 : ("\n\n" : String).length = 2 := rfl
        omega
      · -- empty current chunk: the paragraph becomes the current chunk
        exact ih p acc (fun q hq => hps q (List.mem_cons_of_mem _ hq))
          (le_trans (hps p (List.mem_cons_self p ps)) (by omega)) hacc c hc

/-- Claim C7, amended: every chunk produced by the sliding-window chunker
`chunk_text_by_tokens` has at most `chunk_tokens * 4` characters (within the
target size, hence within target plus overlap).  The paragraph chunker
`chunk_text_for_llm` guarantees a bound only when no single paragraph
exceeds the target: then every chunk has at most `max_chunk_size + 2`
characters (the 2 coming from an appended paragraph separator); an
oversized paragraph is emitted whole, exceeding the target by arbitrarily
more than any overlap margin. -/
theorem c7_chunk_bound_amended :
    (∀ (text : List Char) (chunk_tokens overlap_tokens : Nat) (res : List (List Char)),
        chunk_text_by_tokens text chunk_tokens overlap_tokens = some res →
        ∀ c ∈ res, c.length ≤ chunk_tokens * 4) ∧
    (∀ (text : String) (max_chunk_size : Nat),
        (∀ p ∈ pyParagraphs text, p.length ≤ max_chunk_size) →
        ∀ c ∈ chunk_text_for_llm text max_chunk_size, c.length ≤ max_chunk_size + 2) := by
  constructor
  · intro text ct ot res h
    exact chunkLoop_chunk_len text (ct * 4) (ot * 4) _ 0 [] res (by simp) h
  · intro text m hp
    exact ctflLoop_len_bound m (pyParagraphs text) "" [] hp (by simp) (by simp)

/-- Witness for the amended C7 theorem at concrete inputs. -/
theorem c7_witness :
    (['a', 'b', 'c', 'd'] : List Char).length ≤ 1 * 4 ∧
    ("hello" : String).length ≤ 10 + 2 := by
  constructor
  · exact (c7_chunk_bound_amended.1 "abcdef".toList 1 0 [['a', 'b', 'c', 'd'], ['e', 'f']]
      (by decide)) ['a', 'b', 'c', 'd'] (by decide)
  · exact (c7_chunk_bound_amended.2 "hello" 10 (by decide)) "hello" (by decide)

lemma splitParas_cons_ne (c : Char) (rest cur : List Char) (hc : c ≠ '\n') :
    splitParas (c :: rest) cur = splitParas rest (c :: cur) := by
  rw [splitParas.eq_def]
  split
  · rename_i heq; simp at heq
  · rename_i rest2 heq
    simp at heq
    exact absurd heq.1 hc
  · rename_i c2 rest2 heq
    injection heq with h1 h2
    subst h1; subst h2; rfl

lemma splitParas_no_newline :
    ∀ (l cur : List Char), (∀ c ∈ l, c ≠ '\n') → splitParas l cur = [cur.reverse ++ l] := by
  intro l
  induction l with
  | nil => intro cur _; simp [splitParas]
  | cons c rest ih =>
    intro cur h
    have hc : c ≠ '\n' := h c (List.mem_cons_self c rest)
    rw [splitParas_cons_ne c rest cur hc]
    rw [ih (c :: cur) (fun x hx => h x (List.mem_cons_of_mem _ hx))]
    simp

lemma pyStripList_replicate (n : Nat) (c : Char) (h : isPyWs c = false) :
    pyStripList (List.replicate n c) = List.replicate n c := by
  simp [pyStripList, List.dropWhile_replicate, h]

/-- Claim C7, counterexample: a 5000-character text with no paragraph break
is one single paragraph; with the default target `max_chunk_size = 4000`
(and even granting the sliding-window overlap margin of 800 characters),
`chunk_text_for_llm` emits it whole as a single 5000-character chunk,
exceeding target plus margin. -/
theorem c7_chunk_bound_counterexample :
    chunk_text_for_llm ⟨List.replicate 5000 'a'⟩ 4000 = [⟨List.replicate 5000 'a'⟩] ∧
    4000 + 800 < (⟨List.replicate 5000 'a'⟩ : String).length := by
  have hlen : (⟨List.replicate 5000 'a'⟩ : String).length = 5000 := by
    show (List.replicate 5000 'a').length = 5000
    rw [List.length_replicate]
  have hmkne : (⟨List.replicate 5000 'a'⟩ : String) ≠ "" := by
    intro hmk
    have hdata : List.replicate 5000 'a' = [] := congrArg String.data hmk
    have h50 : (List.replicate 5000 'a').length = 0 := by rw [hdata]; rfl
    rw [List.length_replicate] at h50
    exact absurd h50 (by norm_num)
  have hstrip : pyStrip (⟨List.replicate 5000 'a'⟩ : String) = ⟨List.replicate 5000 'a'⟩ := by
    show (⟨pyStripList (List.replicate 5000 'a')⟩ : String) = _
    rw [pyStripList_replicate 5000 'a' (by decide)]
  constructor
  · have hpar : pyParagraphs ⟨List.replicate 5000 'a'⟩ = [⟨List.replicate 5000 'a'⟩] := by
      simp only [pyParagraphs]
      rw [show (⟨List.replicate 5000 'a'⟩ : String).toList = List.replicate 5000 'a' from rfl]
      rw [splitParas_no_newline _ [] (fun x hx => by
        rw [List.eq_of_mem_replicate hx]; decide)]
      simp only [List.reverse_nil, List.nil_append, List.map_cons, List.map_nil]
    simp only [chunk_text_for_llm, hpar]
    simp only [ctflLoop]
    rw [if_neg (fun hand => hand.2 rfl), if_neg (fun hne => hne rfl)]
    rw [hstrip]
    rw [if_pos hmkne, List.nil_append]
  · omega
lemma filterMap_of_none {α β : Type} (f : α → Option β) (l : List α)
    (h : ∀ x, f x = none) : l.filterMap f = [] := by
  induction l with
  | nil => rfl
  | cons a as ih => simp [List.filterMap_cons, h a, ih]

lemma sliceChunksF_succ (fuel : Nat) (l : List Char) :
    sliceChunksF (fuel + 1) l =
      if l = [] then [] else l.take 20000 :: sliceChunksF fuel (l.drop 20000) := rfl

lemma replicate_char_ne_nil (n : Nat) (c : Char) (h : 0 < n) :
    List.replicate n c ≠ [] := by
  intro heq
  have hl := congrArg List.length heq
  rw [List.length_replicate, List.length_nil] at hl
  exact absurd hl (by omega)

lemma summarize_document_large (llm : LLM) (full_text : String)
    (hbig : 20000 < full_text.length) :
    summarize_document llm full_text = summarizeLarge llm full_text := by
  unfold summarize_document
  rw [if_pos hbig]

lemma summarizeLarge_of_nil (llm : LLM) (full_text : String)
    (hnil : partialSummaries llm full_text = []) :
    summarizeLarge llm full_text =
      "Unable to generate summary due to processing errors." := by
  simp only [summarizeLarge]
  rw [if_pos hnil]

lemma summarizeLarge_of_final_error (llm : LLM) (full_text : String) (e : String)
    (hne : partialSummaries llm full_text ≠ [])
    (hfin : llm (finalPrompt (String.intercalate " " (partialSummaries llm full_text))) =
      Except.error e) :
    summarizeLarge llm full_text = "Summary generation failed: " ++ e := by
  simp only [summarizeLarge]
  rw [if_neg hne, hfin]

/-- Claim C6, amended: for every oversized document (more than 20000
characters) the Summarizer is total: if every partial-summary call fails it
returns the fixed string "Unable to generate summary due to processing
errors."; if some partials succeed but the final reduction call fails, it
returns "Summary generation failed: " followed by the error detail — not
the concatenation of the successful partial summaries, and not a
document-name placeholder (the function never sees the document name). -/
theorem c6_summarizer_amended (llm : LLM) (full_text : String)
    (hbig : 20000 < full_text.length) :
    (partialSummaries llm full_text = [] →
      summarize_document llm full_text =
        "Unable to generate summary due to processing errors.") ∧
    (∀ e : String, partialSummaries llm full_text ≠ [] →
      llm (finalPrompt (String.intercalate " " (partialSummaries llm full_text))) =
        Except.error e →
      summarize_document llm full_text = "Summary generation failed: " ++ e) := by
  constructor
  · intro hnil
    rw [summarize_document_large llm full_text hbig]
    exact summarizeLarge_of_nil llm full_text hnil
  · intro e hne hfin
    rw [summarize_document_large llm full_text hbig]
    exact summarizeLarge_of_final_error llm full_text e hne hfin

/-- Witness for the amended C6 theorem: a 20001-character document with a
model that always fails yields the fixed error-indicating string. -/
theorem c6_witness :
    summarize_document (fun _ => Except.error "service down") ⟨List.replicate 20001 'a'⟩ =
      "Unable to generate summary due to processing errors." := by
  have hbig : (20000 : Nat) < (⟨List.replicate 20001 'a'⟩ : String).length := by
    show (20000 : Nat) < (List.replicate 20001 'a').length
    rw [List.length_replicate]
    norm_num
  have hnil : partialSummaries (fun _ => Except.error "service down")
      ⟨List.replicate 20001 'a'⟩ = [] :=
    filterMap_of_none _ _ (fun _ => rfl)
  exact (c6_summarizer_amended (fun _ => Except.error "service down")
    ⟨List.replicate 20001 'a'⟩ hbig).1 hnil

set_option maxRecDepth 20000 in
/-- Claim C6, counterexample: a 20001-character document is sliced into a
20000-character chunk and a 1-character chunk.  With a model that answers
the long partial prompt but fails on short prompts, one partial summary
("PART") succeeds and the final reduction call fails — and
`summarize_document` returns "Summary generation failed: model down", not
the concatenation "PART" of the successful partial summaries. -/
theorem c6_summarizer_counterexample :
    summarize_document
        (fun p => if 10000 ≤ p.length then Except.ok "PART" else Except.error "model down")
        ⟨List.replicate 20001 'a'⟩ = "Summary generation failed: model down" ∧
    partialSummaries
        (fun p => if 10000 ≤ p.length then Except.ok "PART" else Except.error "model down")
        ⟨List.replicate 20001 'a'⟩ = ["PART"] ∧
    ("Summary generation failed: model down" : String) ≠ "PART" := by
  have hbig : (20000 : Nat) < (⟨List.replicate 20001 'a'⟩ : String).length := by
    show (20000 : Nat) < (List.replicate 20001 'a').length
    rw [List.length_replicate]
    norm_num
  have hchunks : sliceChunks (⟨List.replicate 20001 'a'⟩ : String).toList =
      [List.replicate 20000 'a', List.replicate 1 'a'] := by
    show sliceChunksF (List.replicate 20001 'a').length (List.replicate 20001 'a') = _
    rw [List.length_replicate]
    rw [show (20001 : Nat) = 20000 + 1 from by norm_num, sliceChunksF_succ]
    rw [if_neg (replicate_char_ne_nil _ 'a' (by norm_num))]
    rw [List.take_replicate, List.drop_replicate]
    rw [show min 20000 (20000 + 1) = 20000 from by omega]
    rw [show (20000 : Nat) + 1 - 20000 = 1 from by omega]
    rw [show (20000 : Nat) = 19999 + 1 from by norm_num, sliceChunksF_succ]
    rw [if_neg (replicate_char_ne_nil _ 'a' (by norm_num))]
    rw [List.take_replicate, List.drop_replicate]
    rw [show min 20000 1 = 1 from by omega, show (1 : Nat) - 20000 = 0 from by omega]
    rw [show List.replicate 0 'a' = [] from rfl]
    rw [show (19999 : Nat) = 19998 + 1 from by norm_num, sliceChunksF_succ]
    rw [if_pos rfl]
  have hlong : (10000 : Nat) ≤ (partialPrompt ⟨List.replicate 20000 'a'⟩).length := by
    simp only [partialPrompt, String.length_append]
    have hs : (⟨List.replicate 20000 'a'⟩ : String).length = 20000 := by
      show (List.replicate 20000 'a').length = 20000
      rw [List.length_replicate]
    omega
  have hp1 : (fun p => if 10000 ≤ p.length then Except.ok "PART" else
      Except.error "model down") (partialPrompt ⟨List.replicate 20000 'a'⟩) =
      Except.ok ("PART" : String) := by
    show (if (10000 : Nat) ≤ (partialPrompt ⟨List.replicate 20000 'a'⟩).length then
      Except.ok ("PART" : String) else Except.error "model down") = _
    rw [if_pos hlong]
  have hp2 : (fun p => if 10000 ≤ p.length then Except.ok "PART" else
      Except.error "model down") (partialPrompt ⟨List.replicate 1 'a'⟩) =
      Except.error ("model down" : String) := by
    show (if (10000 : Nat) ≤ (partialPrompt ⟨List.replicate 1 'a'⟩).length then
      Except.ok ("PART" : String) else Except.error "model down") = _
    rw [if_neg (by decide)]
  have hsum : partialSummaries
      (fun p => if 10000 ≤ p.length then Except.ok "PART" else Except.error "model down")
      ⟨List.replicate 20001 'a'⟩ = ["PART"] := by
    simp only [partialSummaries, hchunks]
    rw [show ([List.replicate 20000 'a', List.replicate 1 'a'].take 3) =
      [List.replicate 20000 'a', List.replicate 1 'a'] from rfl]
    rw [List.filterMap_cons, List.filterMap_cons, List.filterMap_nil]
    simp only [hp1, hp2]
    rfl
  have hfin : (fun p => if 10000 ≤ p.length then Except.ok "PART" else
      Except.error "model down") (finalPrompt (String.intercalate " " ["PART"])) =
      Except.error ("model down" : String) := by
    show (if (10000 : Nat) ≤ (finalPrompt (String.intercalate " " ["PART"])).length then
      Except.ok ("PART" : String) else Except.error "model down") = _
    rw [if_neg (by decide)]
  refine ⟨?_, hsum, by decide⟩
  have hne : partialSummaries
      (fun p => if 10000 ≤ p.length then Except.ok "PART" else Except.error "model down")
      ⟨List.replicate 20001 'a'⟩ ≠ [] := by
    rw [hsum]
    exact List.cons_ne_nil _ _
  have hfin' : (fun p => if 10000 ≤ p.length then Except.ok "PART" else
      (Except.error "model down" : Except String String))
      (finalPrompt (String.intercalate " " (partialSummaries
        (fun p => if 10000 ≤ p.length then Except.ok "PART" else Except.error "model down")
        ⟨List.replicate 20001 'a'⟩))) = Except.error ("model down" : String) := by
    rw [hsum]
    exact hfin
  rw [summarize_document_large _ _ hbig]
  rw [summarizeLarge_of_final_error _ _ "model down" hne hfin']
  rfl

/-- Witness for C5 at a concrete failing model call. -/
theorem c5_witness :
    answer_with_context (fun _ => Except.error "request timed out") "What is X?"
        [PyChunk.str "some context"] =
      "I apologize, but I encountered an error while processing your question: request timed out" ∧
    pyContains
      (answer_with_context (fun _ => Except.error "request timed out") "What is X?"
        [PyChunk.str "some context"]) "I apologize" = true := by
  have h := c5_answer_never_raises (fun _ => Except.error "request timed out") "What is X?"
    [PyChunk.str "some context"] "request timed out" rfl
  exact ⟨h.1, h.2.1⟩

lemma check_pdf_size_eq (s : String) :
    check_pdf_size s =
      if s.length / 4 < 5000 then ("small", s.length / 4, "✅ Document size is optimal")
      else if s.length / 4 < 15000 then
        ("medium", s.length / 4, "⚠️ Document is large, will be chunked for processing")
      else ("large", s.length / 4, "⚠️ Very large document, processing may take longer") :=
  rfl

lemma check_document_size_eq (s : String) :
    check_document_size s =
      if s.length / 4 > 8000 then
        ("large", s.length / 4,
          "Large document (" ++ toString (s.length / 4) ++ " tokens - may take longer to process)")
      else if s.length / 4 > 4000 then
        ("medium", s.length / 4, "Medium document (" ++ toString (s.length / 4) ++ " tokens)")
      else ("small", s.length / 4, "Small document (" ++ toString (s.length / 4) ++ " tokens)") :=
  rfl

/-- Claim C8, counterexample: an 18000-character text has token estimate
4500, which is below 5000 — the claim classifies it small — but the size
checker `check_document_size` cited by the claim classifies it "medium"
(its thresholds are 4000/8000, not 5000/15000). -/
theorem c8_size_classifier_counterexample :
    (check_document_size ⟨List.replicate 18000 'a'⟩).1 = "medium" ∧
    (check_document_size ⟨List.replicate 18000 'a'⟩).2.1 = 4500 ∧
    (4500 : Nat) < 5000 ∧ ("medium" : String) ≠ "small" := by
  have hlen : (⟨List.replicate 18000 'a'⟩ : String).length = 18000 := by
    show (List.replicate 18000 'a').length = 18000
    rw [List.length_replicate]
  have hmain : check_document_size ⟨List.replicate 18000 'a'⟩ =
      ("medium", 4500, "Medium document (" ++ toString (4500 : Nat) ++ " tokens)") := by
    rw [check_document_size_eq, hlen]
    norm_num
  rw [hmain]
  refine ⟨rfl, rfl, by norm_num, by decide⟩

/-- Claim C8, amended: the repository has two size classifiers with
different hardcoded thresholds.  `check_pdf_size` (token_utils.py)
estimates tokens as characters divided by 4 and classifies small exactly
below 5000 tokens, medium exactly in [5000, 15000), large exactly at or
above 15000.  `check_document_size` (ingest.py) uses the same estimate but
classifies small at up to 4000 tokens, medium in (4000, 8000], large above
8000.  Both return the estimate and are pure functions of the text. -/
theorem c8_size_classifier_amended (s : String) :
    ((check_pdf_size s).2.1 = s.length / 4 ∧
      ((check_pdf_size s).1 = "small" ↔ s.length / 4 < 5000) ∧
      ((check_pdf_size s).1 = "medium" ↔ 5000 ≤ s.length / 4 ∧ s.length / 4 < 15000) ∧
      ((check_pdf_size s).1 = "large" ↔ 15000 ≤ s.length / 4)) ∧
    ((check_document_size s).2.1 = s.length / 4 ∧
      ((check_document_size s).1 = "small" ↔ s.length / 4 ≤ 4000) ∧
      ((check_document_size s).1 = "medium" ↔ 4000 < s.length / 4 ∧ s.length / 4 ≤ 8000) ∧
      ((check_document_size s).1 = "large" ↔ 8000 < s.length / 4)) := by
  rw [check_pdf_size_eq, check_document_size_eq]
  split_ifs with h1 h2 h3 h4 <;>
    refine ⟨⟨rfl, ?_, ?_, ?_⟩, ⟨rfl, ?_, ?_, ?_⟩⟩ <;>
    simp only [] <;>
    constructor <;>
    intro hx <;>
    first
      | omega
      | (exact absurd hx (by decide))
      | rfl
      | trivial

lemma dedupKeepFirst_not_seen :
    ∀ (l : List Paper) (seen : List String) (p : Paper),
      p ∈ dedupKeepFirst l seen → normTitle p ∉ seen := by
  intro l
  induction l with
  | nil => intro seen p hp; simp [dedupKeepFirst] at hp
  | cons q rest ih =>
    intro seen p hp
    simp only [dedupKeepFirst] at hp
    split at hp
    · exact ih seen p hp
    · rename_i hq
      rcases List.mem_cons.mp hp with rfl | hp'
      · exact hq
      · intro hmem
        exact ih (normTitle q :: seen) p hp' (List.mem_cons_of_mem _ hmem)

lemma dedupKeepFirst_subset :
    ∀ (l : List Paper) (seen : List String) (p : Paper),
      p ∈ dedupKeepFirst l seen → p ∈ l := by
  intro l
  induction l with
  | nil => intro seen p hp; simp [dedupKeepFirst] at hp
  | cons q rest ih =>
    intro seen p hp
    simp only [dedupKeepFirst] at hp
    split at hp
    · exact List.mem_cons_of_mem _ (ih seen p hp)
    · rcases List.mem_cons.mp hp with rfl | hp'
      · exact List.mem_cons_self _ _
      · exact List.mem_cons_of_mem _ (ih _ p hp')

lemma dedupKeepFirst_pairwise :
    ∀ (l : List Paper) (seen : List String),
      List.Pairwise (fun a b => normTitle a ≠ normTitle b) (dedupKeepFirst l seen) := by
  intro l
  induction l with
  | nil => intro seen; simp [dedupKeepFirst]
  | cons q rest ih =>
    intro seen
    simp only [dedupKeepFirst]
    split
    · exact ih seen
    · refine List.Pairwise.cons ?_ (ih _)
      intro b hb hqb
      exact dedupKeepFirst_not_seen rest (normTitle q :: seen) b hb
        (hqb ▸ List.mem_cons_self _ _)

lemma dedupKeepFirst_sim_max :
    ∀ (l : List Paper) (seen : List String),
      List.Sorted paperGE l →
      ∀ p ∈ dedupKeepFirst l seen, ∀ q ∈ l,
        normTitle q = normTitle p → q.similarity ≤ p.similarity := by
  intro l
  induction l with
  | nil => intro seen _ p hp; simp [dedupKeepFirst] at hp
  | cons x rest ih =>
    intro seen hsort p hp q hq hnorm
    have hsort' : List.Sorted paperGE rest := hsort.of_cons
    simp only [dedupKeepFirst] at hp
    split at hp
    · rename_i hx
      have hpnot := dedupKeepFirst_not_seen rest seen p hp
      rcases List.mem_cons.mp hq with rfl | hq'
      · exact absurd (hnorm ▸ hx) hpnot
      · exact ih seen hsort' p hp q hq' hnorm
    · rename_i hx
      rcases List.mem_cons.mp hp with rfl | hp'
      · rcases List.mem_cons.mp hq with rfl | hq'
        · exact le_refl _
        · exact List.rel_of_sorted_cons hsort q hq'
      · have hpnot := dedupKeepFirst_not_seen rest (normTitle x :: seen) p hp'
        rcases List.mem_cons.mp hq with rfl | hq'
        · exact absurd (by rw [← hnorm]; exact List.mem_cons_self _ _) hpnot
        · exact ih _ hsort' p hp' q hq' hnorm

/-- Claim C9: for every merged candidate list, `search_papers_by_embedding`
returns at most 7 papers, no two of which have the same normalized
(lowercased, stripped) title; every returned paper is one of the candidates,
and each returned paper has similarity at least that of every candidate
sharing its normalized title (the higher-ranked duplicate is kept). -/
theorem c9_related_dedup (all_papers : List Paper) :
    (search_papers_by_embedding all_papers).length ≤ 7 ∧
    List.Pairwise (fun a b => normTitle a ≠ normTitle b)
      (search_papers_by_embedding all_papers) ∧
    (∀ p ∈ search_papers_by_embedding all_papers, p ∈ all_papers) ∧
    (∀ p ∈ search_papers_by_embedding all_papers, ∀ q ∈ all_papers,
        normTitle q = normTitle p → q.similarity ≤ p.similarity) := by
  have hsorted : List.Sorted paperGE (sortBySimilarityDesc all_papers) :=
    List.sorted_insertionSort paperGE all_papers
  have hmem : ∀ x : Paper, x ∈ sortBySimilarityDesc all_papers ↔ x ∈ all_papers :=
    fun x => List.mem_insertionSort paperGE
  refine ⟨?_, ?_, ?_, ?_⟩
  · rw [search_papers_by_embedding, List.length_take]
    omega
  · exact List.Pairwise.sublist (List.take_sublist _ _) (dedupKeepFirst_pairwise _ [])
  · intro p hp
    exact (hmem p).mp (dedupKeepFirst_subset _ _ p ((List.take_sublist _ _).subset hp))
  · intro p hp q hq hnorm
    exact dedupKeepFirst_sim_max _ [] hsorted p ((List.take_sublist _ _).subset hp)
      q ((hmem q).mpr hq) hnorm

/-- Witness for C9: two candidates whose titles differ only in case and
whitespace collapse to one entry, and the kept entry dominates the dropped
duplicate's similarity. -/
theorem c9_witness :
    ((1 : Int) ≤ (2 : Int)) ∧
    (search_papers_by_embedding [⟨"A Paper", 1⟩, ⟨" a paper ", 2⟩]).length ≤ 7 := by
  have h := c9_related_dedup [⟨"A Paper", 1⟩, ⟨" a paper ", 2⟩]
  refine ⟨?_, h.1⟩
  exact h.2.2.2 ⟨" a paper ", 2⟩ (by decide) ⟨"A Paper", 1⟩ (by decide) (by decide)

end Adhyayan
